import Mathlib

/-!
A shallow embedding of the scraping core of `playwright-google-rnd`:
the organic-result extractor, the session driver's control flow
(`GoogleSearchWithSession.search`, `GoogleSimpleScraper.search`),
the search service (`search_single`, `search_batch`) and the job service.

Browser interaction is modelled by a `Page` / `World` value describing what
each DOM probe or playwright call would return (or whether it raises); the
embedded functions mirror the Python control flow over those values and
additionally record a trace of resource events (context close, storage
persist, screenshots) so that cleanup and persistence properties can be
stated.  Timestamps are abstracted to opaque strings.
-/

namespace Scrape

/-! ### CPython `urllib.parse` netloc extraction

`google_session_scraper.py` line 174 computes
`urlparse(result['link']).netloc if result['link'] else ""`.
We embed the part of CPython `urlsplit` that determines `netloc`:
lstrip of C0-control/space characters, removal of the unsafe bytes
tab/CR/LF, optional scheme split, then — only when the remainder starts
with `//` — the authority up to the first `/`, `?` or `#`, with the
mismatched-bracket check that makes `urlparse` raise `ValueError`
(modelled as `none`). -/

def isSchemeChar (c : Char) : Bool :=
  c.isAlpha || c.isDigit || c = '+' || c = '-' || c = '.'

def isUnsafeUrlChar (c : Char) : Bool :=
  c = '\t' || c = '\r' || c = '\n'

/-- Strip a leading scheme (`http:` etc.) exactly as CPython `urlsplit`
does: a `:` at position `i > 0`, first character an ASCII letter, and all
characters before the `:` scheme characters. -/
def splitScheme (cs : List Char) : List Char :=
  match cs.findIdx? (fun c => c = ':') with
  | none => cs
  | some i =>
    if 0 < i ∧ (cs.headD ' ').isAlpha ∧ (cs.take i).all isSchemeChar then
      cs.drop (i + 1)
    else cs

/-- The `netloc` field of CPython `urlparse`; `none` models the
`ValueError` raised on a mismatched `[`/`]` in the authority. -/
def urlparse_netloc (s : String) : Option String :=
  let cs := (s.data.dropWhile (fun c => c.toNat ≤ 0x20)).filter
    (fun c => !isUnsafeUrlChar c)
  let rest := splitScheme cs
  match rest with
  | '/' :: '/' :: r =>
    let netloc := r.takeWhile (fun c => c ≠ '/' && c ≠ '?' && c ≠ '#')
    if (netloc.contains '[') ≠ (netloc.contains ']') then none
    else some (String.mk netloc)
  | _ => some ""

/-! ### Organic result extraction

One `Candidate` describes what the per-result DOM probes of the loop at
`google_session_scraper.py` lines 161–213 would observe for one element of
`page.locator('.wHYlTd, .g').all()`.  An `Option String` field is `none`
when the probed sub-element is absent (its `count()` is 0); when the
element is present its text/attribute is modelled as a string (possibly
empty).  `probeRaises` models any playwright exception thrown while
probing this candidate, which the per-candidate `except` swallows with
`continue`. -/

structure SitelinkElem where
  text : Option String := none
  href : Option String := none
deriving DecidableEq, Repr

structure Sitelink where
  text : String
  link : String
deriving DecidableEq, Repr

structure Candidate where
  probeRaises : Bool := false
  title : Option String := none
  link : Option String := none
  snippet : Option String := none
  date : Option String := none
  sitelinks : List SitelinkElem := []
  rating : Option String := none
deriving DecidableEq, Repr

structure OrganicResult where
  position : Nat
  title : String
  link : Option String := none
  domain : Option String := none
  snippet : Option String := none
  date : Option String := none
  sitelinks : List Sitelink := []
  rating : Option String := none
deriving DecidableEq, Repr

/-- Lines 188–194: sitelink anchors, first four, kept when both the text
and the href are truthy. -/
def extractSitelinks (elems : List SitelinkElem) : List Sitelink :=
  (elems.take 4).filterMap fun sl =>
    match sl.text, sl.href with
    | some t, some h => if t ≠ "" ∧ h ≠ "" then some ⟨t, h⟩ else none
    | _, _ => none

/-- Lines 171–174: the `link` and `domain` keys of the result dict.
`none` at the outer level models the `ValueError` that
`urlparse` raises inside the candidate's `try`, which drops the whole
candidate.  Inner values: (`link` key, `domain` key); both keys are
absent when no `a[href]` element exists. -/
def linkDomain (link : Option String) : Option (Option String × Option String) :=
  match link with
  | none => some (none, none)
  | some s =>
    if s = "" then some (some s, some "")
    else
      match urlparse_netloc s with
      | none => none
      | some d => some (some s, some d)

/-- Lines 161–213 for one candidate at 1-based enumeration index `i`:
the candidate is kept only when no probe raised and a truthy title was
found; the result dict then carries `position := i` and the probed
fields. -/
def extractCandidate (i : Nat) (c : Candidate) : Option OrganicResult :=
  match c.probeRaises, linkDomain c.link, c.title with
  | false, some ld, some t =>
    if t = "" then none
    else
      some { position := i, title := t, link := ld.1, domain := ld.2,
             snippet := c.snippet, date := c.date,
             sitelinks := extractSitelinks c.sitelinks, rating := c.rating }
  | _, _, _ => none

/-- The loop `for i, div in enumerate(result_divs[:max_results], 1)`:
the enumeration counter advances on every candidate, kept or dropped. -/
def enumOrganic (i : Nat) : List Candidate → List OrganicResult
  | [] => []
  | c :: rest =>
    match extractCandidate i c with
    | some r => r :: enumOrganic (i + 1) rest
    | none => enumOrganic (i + 1) rest

def extractOrganic (max_results : Nat) (cands : List Candidate) : List OrganicResult :=
  enumOrganic 1 (cands.take max_results)

/-- `GoogleSimpleScraper` (lines 120–149): same loop but probing only
title, link/domain and snippet. -/
def extractCandidateSimple (i : Nat) (c : Candidate) : Option OrganicResult :=
  match c.probeRaises, linkDomain c.link, c.title with
  | false, some ld, some t =>
    if t = "" then none
    else
      some { position := i, title := t, link := ld.1, domain := ld.2,
             snippet := c.snippet }
  | _, _, _ => none

def enumOrganicSimple (i : Nat) : List Candidate → List OrganicResult
  | [] => []
  | c :: rest =>
    match extractCandidateSimple i c with
    | some r => r :: enumOrganicSimple (i + 1) rest
    | none => enumOrganicSimple (i + 1) rest

def extractOrganicSimple (max_results : Nat) (cands : List Candidate) : List OrganicResult :=
  enumOrganicSimple 1 (cands.take max_results)

/-- The spec's density property for `position` values ("exactly
`1..len(sequence)` with no gaps or duplicates, in document order"). -/
def positionsDense (l : List OrganicResult) : Prop :=
  l.map (fun r => r.position) = List.range' 1 l.length

instance (l : List OrganicResult) : Decidable (positionsDense l) := by
  unfold positionsDense; infer_instance

/-! ### The remaining content regions

Each region of `google_session_scraper.py` (People-also-ask 218–227,
related searches 230–239, videos 242–267, ads 270–292, local results
294–321) sits behind its own `try`/`except`.  An exception inside a
region's loop keeps the elements appended so far and loses the rest; we
model that raise point as `stop : Option Nat` — `none` means the region's
loop ran to completion, `some k` that it raised after `k` iterations.
Text content of a present element is modelled as a string (possibly
empty); a wholly absent text is `none` where the code checks it. -/

def stopTake (stop : Option Nat) (l : List α) : List α :=
  match stop with
  | none => l
  | some k => l.take k

structure VideoCand where
  title : Option String := none
  duration : Option String := none
  source : Option String := none
deriving DecidableEq, Repr

structure VideoData where
  title : Option String := none
  duration : Option String := none
  source : Option String := none
deriving DecidableEq, Repr

structure AdCand where
  title : Option String := none
  display_url : Option String := none
  description : Option String := none
deriving DecidableEq, Repr

structure AdData where
  title : Option String := none
  display_url : Option String := none
  description : Option String := none
deriving DecidableEq, Repr

structure LocalCand where
  name : Option String := none
  rating : Option String := none
  reviews : Option String := none
deriving DecidableEq, Repr

structure LocalData where
  name : Option String := none
  rating : Option String := none
  reviews : Option String := none
deriving DecidableEq, Repr

structure FeaturedSnippet where
  text : Option String := none
  source : Option String := none
deriving DecidableEq, Repr

/-- Lines 218–227: `paa_items[:6]`, each appended (stripped) when its
text content is truthy. -/
def extractPaa (items : List (Option String)) (stop : Option Nat) : List String :=
  (stopTake stop (items.take 6)).filterMap fun q =>
    match q with
    | some s => if s = "" then none else some s.trim
    | none => none

/-- Lines 230–239: `related[:8]`, same truthy-then-strip policy. -/
def extractRelated (items : List (Option String)) (stop : Option Nat) : List String :=
  (stopTake stop (items.take 8)).filterMap fun q =>
    match q with
    | some s => if s = "" then none else some s.trim
    | none => none

/-- Lines 242–267: when the `video-voyager` section exists, `videos[:3]`,
each appended when its probed dict is non-empty. -/
def extractVideos (present : Bool) (vids : List VideoCand) (stop : Option Nat) :
    List VideoData :=
  if present then
    (stopTake stop (vids.take 3)).filterMap fun v =>
      if v.title.isSome ∨ v.duration.isSome ∨ v.source.isSome then
        some { title := v.title, duration := v.duration, source := v.source }
      else none
  else []

/-- Lines 270–292: `ad_containers[:5]`, appended when non-empty. -/
def extractAds (ads : List AdCand) (stop : Option Nat) : List AdData :=
  (stopTake stop (ads.take 5)).filterMap fun a =>
    if a.title.isSome ∨ a.display_url.isSome ∨ a.description.isSome then
      some { title := a.title, display_url := a.display_url,
             description := a.description }
    else none

/-- Lines 294–321: when the local pack exists, `local_items[:3]`,
appended when non-empty. -/
def extractLocals (present : Bool) (items : List LocalCand) (stop : Option Nat) :
    List LocalData :=
  if present then
    (stopTake stop (items.take 3)).filterMap fun l =>
      if l.name.isSome ∨ l.rating.isSome ∨ l.reviews.isSome then
        some { name := l.name, rating := l.rating, reviews := l.reviews }
      else none
  else []

/-- What the rendered results page would yield to every probe of the
extractor. -/
structure Page where
  resultStats : Option String := none
  url : String := ""
  featured : Option FeaturedSnippet := none
  candidates : List Candidate := []
  /-- the un-guarded `page.locator('.wHYlTd, .g').all()` at line 157
  raising, which aborts the whole search phase into the error handler. -/
  organicAllFails : Bool := false
  paaItems : List (Option String) := []
  paaStop : Option Nat := none
  relatedItems : List (Option String) := []
  relatedStop : Option Nat := none
  videosPresent : Bool := false
  videos : List VideoCand := []
  videosStop : Option Nat := none
  ads : List AdCand := []
  adsStop : Option Nat := none
  localPresent : Bool := false
  locals : List LocalCand := []
  localsStop : Option Nat := none
deriving Repr

/-! ### The result document -/

structure SearchMetadata where
  result_stats : Option String := none
  url : Option String := none
deriving DecidableEq, Repr

/-- The session scraper records a structured error dict (lines 342–348),
the simple scraper a bare string (line 157). -/
inductive SearchError
  | record (query : String) (message : String) (screenshot : String)
  | msg (message : String)
deriving DecidableEq, Repr

/-- The `search_data` dict: every sequence field initialised empty at
lines 66–80 and only ever appended to. -/
structure SearchData where
  query : String
  timestamp : String := ""
  search_metadata : SearchMetadata := {}
  organic_results : List OrganicResult := []
  people_also_ask : List String := []
  related_searches : List String := []
  featured_snippet : Option FeaturedSnippet := none
  knowledge_panel : Option SearchMetadata := none
  ads : List AdData := []
  local_results : List LocalData := []
  video_results : List VideoData := []
  news_results : List String := []
  shopping_results : List String := []
  error : Option SearchError := none
deriving DecidableEq, Repr

def emptySearchData (query : String) : SearchData := { query := query }

/-! ### Session driver control flow

`World` fixes the outcome of every playwright call the driver makes, and
the embedded `sessionSearch` mirrors the `try`/`except`/`finally` nesting
of `GoogleSearchWithSession.search` (lines 37–358), returning
`Except.error` exactly where the Python method lets an exception escape
(the outer `except` at 356–358 re-raises) and recording resource events:
`contextClose` for the inner `finally`'s `context.close()` (line 353),
`storageState` for a completed `context.storage_state(...)` (line 325),
`playwrightExit` for leaving `async with async_playwright()`. -/

inductive Event
  | launch
  | initScript
  | newPage
  | goto
  | waitResults
  | storageState
  | screenshot
  | contextClose
  | browserClose
  | playwrightExit
deriving DecidableEq, Repr

structure World where
  launchFails : Bool := false
  initScriptFails : Bool := false
  newPageFails : Bool := false
  gotoFails : Bool := false
  /-- consent-dialog handling failing; caught and ignored at 99–100. -/
  consentFails : Bool := false
  /-- search-box click / typing / Enter failing (lines 104–117). -/
  typingFails : Bool := false
  /-- `wait_for_selector("#search", timeout=50000)` timing out. -/
  waitFails : Bool := false
  screenshotFails : Bool := false
  storageStateFails : Bool := false
  page : Page := {}
deriving Repr

/-- The error handler at lines 331–349: screenshot (best effort), attach
the error record, return the partially-filled document; then the
`finally` closes the context. -/
def sessionErrorExit (w : World) (d : SearchData) (done : List Event)
    (message : String) : Except String SearchData × List Event :=
  (Except.ok { d with error := some (.record d.query message "results/screenshots") },
   [Event.launch, Event.initScript, Event.newPage] ++ done ++
     (if w.screenshotFails then [] else [Event.screenshot]) ++
     [Event.contextClose, Event.playwrightExit])

/-- Lines 124–153: the metadata and featured-snippet probes that run
before the organic listing at line 157. -/
def metadataDoc (query : String) (pg : Page) : SearchData :=
  { emptySearchData query with
    search_metadata := { result_stats := pg.resultStats, url := some pg.url },
    featured_snippet := pg.featured }

/-- Lines 124–321 once `#search` appeared: metadata, featured snippet,
organic results, then the remaining regions, each best-effort. -/
def extractAll (query : String) (max_results : Nat) (pg : Page) : SearchData :=
  { metadataDoc query pg with
    organic_results := extractOrganic max_results pg.candidates,
    people_also_ask := extractPaa pg.paaItems pg.paaStop,
    related_searches := extractRelated pg.relatedItems pg.relatedStop,
    video_results := extractVideos pg.videosPresent pg.videos pg.videosStop,
    ads := extractAds pg.ads pg.adsStop,
    local_results := extractLocals pg.localPresent pg.locals pg.localsStop }

def sessionSearch (w : World) (query : String) (max_results : Nat) :
    Except String SearchData × List Event :=
  if w.launchFails then
    (Except.error "launch failed", [Event.playwrightExit])
  else if w.initScriptFails then
    (Except.error "init script failed", [Event.launch, Event.playwrightExit])
  else if w.newPageFails then
    (Except.error "new page failed",
     [Event.launch, Event.initScript, Event.playwrightExit])
  else if w.gotoFails then
    sessionErrorExit w (emptySearchData query) [] "goto failed"
  else if w.typingFails then
    sessionErrorExit w (emptySearchData query) [Event.goto] "typing failed"
  else if w.waitFails then
    sessionErrorExit w (emptySearchData query) [Event.goto] "timeout 50000ms exceeded"
  else if w.page.organicAllFails then
    sessionErrorExit w (metadataDoc query w.page) [Event.goto, Event.waitResults]
      "locator.all failed"
  else if w.storageStateFails then
    sessionErrorExit w (extractAll query max_results w.page)
      [Event.goto, Event.waitResults] "storage_state failed"
  else
    (Except.ok (extractAll query max_results w.page),
     [Event.launch, Event.initScript, Event.newPage, Event.goto,
      Event.waitResults, Event.storageState, Event.contextClose,
      Event.playwrightExit])

/-! ### Simple scraper control flow

`GoogleSimpleScraper.search` (lines 29–167): launch, new context, init
script, new page in the outer `try` (escaping exceptions re-raised at
165–167); the inner `try` covers goto/typing/wait/metadata/organic, its
`except` stores a bare string error, its `finally` closes the browser.
No state persistence, no screenshot, no further regions. -/

structure SimpleWorld where
  launchFails : Bool := false
  newContextFails : Bool := false
  initScriptFails : Bool := false
  newPageFails : Bool := false
  gotoFails : Bool := false
  typingFails : Bool := false
  waitFails : Bool := false
  page : Page := {}
deriving Repr

def simpleErrorExit (d : SearchData) (message : String) :
    Except String SearchData × List Event :=
  (Except.ok { d with error := some (.msg message) },
   [Event.launch, Event.initScript, Event.newPage, Event.browserClose,
    Event.playwrightExit])

/-- Lines 102–112 of the simple scraper: metadata only, no featured
snippet. -/
def simpleMetadataDoc (query : String) (pg : Page) : SearchData :=
  { emptySearchData query with
    search_metadata := { result_stats := pg.resultStats, url := some pg.url } }

def simpleDoc (query : String) (max_results : Nat) (pg : Page) : SearchData :=
  { simpleMetadataDoc query pg with
    organic_results := extractOrganicSimple max_results pg.candidates }

def simpleSearch (w : SimpleWorld) (query : String) (max_results : Nat) :
    Except String SearchData × List Event :=
  if w.launchFails then
    (Except.error "launch failed", [Event.playwrightExit])
  else if w.newContextFails then
    (Except.error "new context failed", [Event.launch, Event.playwrightExit])
  else if w.initScriptFails then
    (Except.error "init script failed", [Event.launch, Event.playwrightExit])
  else if w.newPageFails then
    (Except.error "new page failed",
     [Event.launch, Event.initScript, Event.playwrightExit])
  else if w.gotoFails then
    simpleErrorExit (emptySearchData query) "goto failed"
  else if w.typingFails then
    simpleErrorExit (emptySearchData query) "typing failed"
  else if w.waitFails then
    simpleErrorExit (emptySearchData query) "timeout 50000ms exceeded"
  else if w.page.organicAllFails then
    simpleErrorExit (simpleMetadataDoc query w.page) "locator.all failed"
  else
    (Except.ok (simpleDoc query max_results w.page),
     [Event.launch, Event.initScript, Event.newPage, Event.browserClose,
      Event.playwrightExit])

/-! ### Search service

`SearchService.search_single` (search_service.py lines 48–121): run the
mode's scraper, then either wrap the document (marking failure when it
carries an `error` key) or — when the scraper raised — produce a failed
response whose `data` is the empty dict `{}`, modelled as `none`. -/

inductive ScraperMode
  | session
  | simple
deriving DecidableEq, Repr

structure SearchResponse where
  success : Bool
  query : String
  results_count : Nat
  data : Option SearchData
  error : Option String
deriving DecidableEq, Repr

/-- Python `str(...)` applied to the stored error value at line 97. -/
def SearchError.render : SearchError → String
  | .record _ message _ => message
  | .msg message => message

def scraperResult (mode : ScraperMode) (w : World) (sw : SimpleWorld)
    (query : String) (max_results : Nat) : Except String SearchData :=
  match mode with
  | .session => (sessionSearch w query max_results).1
  | .simple => (simpleSearch sw query max_results).1

def search_single (mode : ScraperMode) (w : World) (sw : SimpleWorld)
    (query : String) (max_results : Nat) : SearchResponse :=
  match scraperResult mode w sw query max_results with
  | .error e =>
    { success := false, query := query, results_count := 0,
      data := none, error := some e }
  | .ok d =>
    match d.error with
    | some err =>
      { success := false, query := query, results_count := 0,
        data := some d, error := some err.render }
    | none =>
      { success := true, query := query, results_count := d.organic_results.length,
        data := some d, error := none }

/-! ### Batch orchestration

`SearchService.search_batch` (lines 123–165): strictly sequential loop;
after each query except the last, `random.uniform(delay_min, delay_max)`
is slept.  `uniform(a, b)` is `a + (b-a)*random()`; the draws of
`random()` are supplied as `us : Nat → ℚ` (one per loop index).  The
trace records one `BatchEvent.search` per query and one
`BatchEvent.delay` per inter-query sleep. -/

inductive BatchEvent
  | search (query : String)
  | delay (d : ℚ)
deriving DecidableEq, Repr

structure BatchItem where
  query : String
  world : World := {}
  simpleWorld : SimpleWorld := {}
deriving Repr

def batchLoop (mode : ScraperMode) (max_results : Nat) (dmin dmax : ℚ)
    (us : Nat → ℚ) (i : Nat) :
    List BatchItem → List SearchResponse × List BatchEvent
  | [] => ([], [])
  | item :: rest =>
    let r := search_single mode item.world item.simpleWorld item.query max_results
    let next := batchLoop mode max_results dmin dmax us (i + 1) rest
    match rest with
    | [] => (r :: next.1, BatchEvent.search item.query :: next.2)
    | _ :: _ =>
      (r :: next.1,
       BatchEvent.search item.query ::
         BatchEvent.delay (dmin + (dmax - dmin) * us i) :: next.2)

def search_batch (mode : ScraperMode) (items : List BatchItem)
    (max_results : Nat) (dmin dmax : ℚ) (us : Nat → ℚ) :
    List SearchResponse × List BatchEvent :=
  batchLoop mode max_results dmin dmax us 0 items

def delaysOf (evs : List BatchEvent) : List ℚ :=
  evs.filterMap fun e =>
    match e with
    | .delay d => some d
    | .search _ => none

/-! ### Background batch task

`run_batch_search_background` (job_router.py lines 62–89) is a second,
independent pacing loop: per query it records progress via
`update_job_progress(job_id, i, len(queries))`, runs `search_single`,
and — except after the last query — sleeps
`random.randint(delay_min, delay_max)` (an integer drawn inclusively
from `[delay_min, delay_max]`, supplied here as `rs : Nat → ℤ`, one draw
per loop index).  The trace records the progress update, the search and
the sleep of each iteration. -/

inductive JobBatchEvent
  | progress (current total : Nat)
  | search (query : String)
  | delay (d : ℤ)
deriving DecidableEq, Repr

def backgroundLoop (mode : ScraperMode) (max_results : Nat) (rs : Nat → ℤ)
    (total : Nat) (i : Nat) :
    List BatchItem → List SearchResponse × List JobBatchEvent
  | [] => ([], [])
  | item :: rest =>
    let r := search_single mode item.world item.simpleWorld item.query max_results
    let next := backgroundLoop mode max_results rs total (i + 1) rest
    match rest with
    | [] =>
      (r :: next.1,
       JobBatchEvent.progress i total :: JobBatchEvent.search item.query :: next.2)
    | _ :: _ =>
      (r :: next.1,
       JobBatchEvent.progress i total :: JobBatchEvent.search item.query ::
         JobBatchEvent.delay (rs i) :: next.2)

def run_batch_background (mode : ScraperMode) (items : List BatchItem)
    (max_results : Nat) (rs : Nat → ℤ) :
    List SearchResponse × List JobBatchEvent :=
  backgroundLoop mode max_results rs items.length 0 items

def delaysOfJob (evs : List JobBatchEvent) : List ℤ :=
  evs.filterMap fun e =>
    match e with
    | .delay d => some d
    | _ => none

/-! ### Job service

`JobService` (job_service.py): an in-memory map keyed by job id, modelled
as an association list with unique keys (a Python dict).  Every mutator
first checks `if job_id in self.jobs` and otherwise does nothing.
Timestamps are passed in as opaque strings. -/

inductive JobState
  | started
  | running
  | completed
  | failed
deriving DecidableEq, Repr

structure JobRecord where
  status : JobState
  progress : String
  results : List SearchResponse := []
  error : Option String := none
  created_at : String := ""
  completed_at : Option String := none
deriving DecidableEq, Repr

abbrev JobMap := List (String × JobRecord)

structure JobStatus where
  job_id : String
  status : JobState
  progress : String
  results : List SearchResponse := []
  error : Option String := none
  created_at : String := ""
  completed_at : Option String := none
deriving DecidableEq, Repr

def containsJob (jobs : JobMap) (jid : String) : Bool :=
  jobs.any fun p => p.1 = jid

/-- `create_job` (lines 18–31) with the fresh uuid and clock passed in. -/
def create_job (jobs : JobMap) (jid : String) (total : Nat) (now : String) : JobMap :=
  jobs ++ [(jid, { status := .started, progress := "0/" ++ toString total,
                   created_at := now })]

/-- `update_job_progress` (lines 33–37). -/
def update_job_progress (jobs : JobMap) (jid : String) (current total : Nat) : JobMap :=
  if containsJob jobs jid then
    jobs.map fun p =>
      if p.1 = jid then
        (p.1, { p.2 with progress := toString current ++ "/" ++ toString total,
                         status := .running })
      else p
  else jobs

/-- `complete_job` (lines 39–44). -/
def complete_job (jobs : JobMap) (jid : String) (results : List SearchResponse)
    (now : String) : JobMap :=
  if containsJob jobs jid then
    jobs.map fun p =>
      if p.1 = jid then
        (p.1, { p.2 with status := .completed, results := results,
                         completed_at := some now })
      else p
  else jobs

/-- `fail_job` (lines 46–51). -/
def fail_job (jobs : JobMap) (jid : String) (error : String) (now : String) : JobMap :=
  if containsJob jobs jid then
    jobs.map fun p =>
      if p.1 = jid then
        (p.1, { p.2 with status := .failed, error := some error,
                         completed_at := some now })
      else p
  else jobs

/-- `get_job` (lines 53–68): `None` on an unknown id, otherwise a
`JobStatus` snapshot. -/
def get_job (jobs : JobMap) (jid : String) : Option JobStatus :=
  match jobs.find? (fun p => p.1 = jid) with
  | none => none
  | some p =>
    some { job_id := jid, status := p.2.status, progress := p.2.progress,
           results := p.2.results, error := p.2.error,
           created_at := p.2.created_at, completed_at := p.2.completed_at }

/-! ## Helper lemmas -/

theorem extractCandidate_position {i : Nat} {c : Candidate} {r : OrganicResult}
    (h : extractCandidate i c = some r) : r.position = i := by
  unfold extractCandidate at h
  split at h
  · split at h
    · exact absurd h (by simp)
    · cases h; rfl
  · exact absurd h (by simp)

theorem extractCandidate_sitelinks {i : Nat} {c : Candidate} {r : OrganicResult}
    (h : extractCandidate i c = some r) : r.sitelinks.length ≤ 4 := by
  unfold extractCandidate at h
  split at h
  · split at h
    · exact absurd h (by simp)
    · cases h
      simp only [extractSitelinks]
      exact le_trans (List.length_filterMap_le _ _) (List.length_take_le _ _)
  · exact absurd h (by simp)

theorem linkDomain_spec {lk : Option String} {ld : Option String × Option String}
    (h : linkDomain lk = some ld) :
    (ld.1 = none ∧ ld.2 = none) ∨
      ∃ s, ld.1 = some s ∧
        ld.2 = some (if s = "" then "" else (urlparse_netloc s).getD "") := by
  cases lk with
  | none => simp only [linkDomain] at h; cases h; exact Or.inl ⟨rfl, rfl⟩
  | some s =>
    simp only [linkDomain] at h
    by_cases hs : s = ""
    · rw [if_pos hs] at h
      cases h
      exact Or.inr ⟨s, rfl, by simp [hs]⟩
    · rw [if_neg hs] at h
      cases hn : urlparse_netloc s with
      | none => rw [hn] at h; cases h
      | some d =>
        rw [hn] at h
        cases h
        exact Or.inr ⟨s, rfl, by simp [hs, hn]⟩

theorem extractCandidate_domain {i : Nat} {c : Candidate} {r : OrganicResult}
    (h : extractCandidate i c = some r) :
    (r.link = none ∧ r.domain = none) ∨
      ∃ s, r.link = some s ∧
        r.domain = some (if s = "" then "" else (urlparse_netloc s).getD "") := by
  unfold extractCandidate at h
  split at h
  · split at h
    · exact absurd h (by simp)
    · cases h
      simpa using linkDomain_spec (by assumption)
  · exact absurd h (by simp)

theorem extractCandidateSimple_domain {i : Nat} {c : Candidate} {r : OrganicResult}
    (h : extractCandidateSimple i c = some r) :
    (r.link = none ∧ r.domain = none) ∨
      ∃ s, r.link = some s ∧
        r.domain = some (if s = "" then "" else (urlparse_netloc s).getD "") := by
  unfold extractCandidateSimple at h
  split at h
  · split at h
    · exact absurd h (by simp)
    · cases h
      simpa using linkDomain_spec (by assumption)
  · exact absurd h (by simp)

theorem enumOrganic_position_bounds (l : List Candidate) :
    ∀ i, ∀ r ∈ enumOrganic i l, i ≤ r.position ∧ r.position < i + l.length := by
  induction l with
  | nil => intro i r hr; simp [enumOrganic] at hr
  | cons c rest ih =>
    intro i r hr
    simp only [enumOrganic] at hr
    cases hc : extractCandidate i c with
    | some r0 =>
      rw [hc] at hr
      rcases List.mem_cons.mp hr with h | h
      · subst h
        have hp := extractCandidate_position hc
        simp only [List.length_cons]
        omega
      · have hb := ih (i + 1) r h
        simp only [List.length_cons]
        omega
    | none =>
      rw [hc] at hr
      have hb := ih (i + 1) r hr
      simp only [List.length_cons]
      omega

theorem enumOrganic_mem_origin (l : List Candidate) :
    ∀ i r, r ∈ enumOrganic i l → ∃ j c, extractCandidate j c = some r := by
  induction l with
  | nil => intro i r hr; simp [enumOrganic] at hr
  | cons c rest ih =>
    intro i r hr
    simp only [enumOrganic] at hr
    cases hc : extractCandidate i c with
    | some r0 =>
      rw [hc] at hr
      rcases List.mem_cons.mp hr with h | h
      · exact ⟨i, c, h ▸ hc⟩
      · exact ih (i + 1) r h
    | none =>
      rw [hc] at hr
      exact ih (i + 1) r hr

theorem enumOrganic_chain (l : List Candidate) :
    ∀ i, List.Chain' (· < ·) ((enumOrganic i l).map fun r => r.position) := by
  induction l with
  | nil => intro i; simp [enumOrganic]
  | cons c rest ih =>
    intro i
    simp only [enumOrganic]
    cases hc : extractCandidate i c with
    | none => exact ih (i + 1)
    | some r0 =>
      simp only [List.map_cons]
      refine List.chain'_cons'.mpr ⟨?_, ih (i + 1)⟩
      intro y hy
      rw [List.head?_map] at hy
      cases hh : (enumOrganic (i + 1) rest).head? with
      | none => rw [hh] at hy; cases hy
      | some r1 =>
        rw [hh] at hy
        cases hy
        have hmem : r1 ∈ enumOrganic (i + 1) rest :=
          List.mem_of_mem_head? (by rw [hh]; rfl)
        have hb := enumOrganic_position_bounds rest (i + 1) r1 hmem
        have hp := extractCandidate_position hc
        simp only
        omega

theorem extractCandidateSimple_position {i : Nat} {c : Candidate}
    {r : OrganicResult} (h : extractCandidateSimple i c = some r) :
    r.position = i := by
  unfold extractCandidateSimple at h
  split at h
  · split at h
    · exact absurd h (by simp)
    · cases h; rfl
  · exact absurd h (by simp)

theorem enumOrganicSimple_position_bounds (l : List Candidate) :
    ∀ i, ∀ r ∈ enumOrganicSimple i l, i ≤ r.position ∧ r.position < i + l.length := by
  induction l with
  | nil => intro i r hr; simp [enumOrganicSimple] at hr
  | cons c rest ih =>
    intro i r hr
    simp only [enumOrganicSimple] at hr
    cases hc : extractCandidateSimple i c with
    | some r0 =>
      rw [hc] at hr
      rcases List.mem_cons.mp hr with h | h
      · subst h
        have hp := extractCandidateSimple_position hc
        simp only [List.length_cons]
        omega
      · have hb := ih (i + 1) r h
        simp only [List.length_cons]
        omega
    | none =>
      rw [hc] at hr
      have hb := ih (i + 1) r hr
      simp only [List.length_cons]
      omega

theorem enumOrganicSimple_chain (l : List Candidate) :
    ∀ i, List.Chain' (· < ·) ((enumOrganicSimple i l).map fun r => r.position) := by
  induction l with
  | nil => intro i; simp [enumOrganicSimple]
  | cons c rest ih =>
    intro i
    simp only [enumOrganicSimple]
    cases hc : extractCandidateSimple i c with
    | none => exact ih (i + 1)
    | some r0 =>
      simp only [List.map_cons]
      refine List.chain'_cons'.mpr ⟨?_, ih (i + 1)⟩
      intro y hy
      rw [List.head?_map] at hy
      cases hh : (enumOrganicSimple (i + 1) rest).head? with
      | none => rw [hh] at hy; cases hy
      | some r1 =>
        rw [hh] at hy
        cases hy
        have hmem : r1 ∈ enumOrganicSimple (i + 1) rest :=
          List.mem_of_mem_head? (by rw [hh]; rfl)
        have hb := enumOrganicSimple_position_bounds rest (i + 1) r1 hmem
        have hp := extractCandidateSimple_position hc
        simp only
        omega

theorem enumOrganic_length_le (l : List Candidate) :
    ∀ i, (enumOrganic i l).length ≤ l.length := by
  induction l with
  | nil => intro i; simp [enumOrganic]
  | cons c rest ih =>
    intro i
    simp only [enumOrganic, List.length_cons]
    cases hc : extractCandidate i c with
    | some r0 => simpa using ih (i + 1)
    | none => exact le_trans (ih (i + 1)) (Nat.le_succ _)

theorem extractOrganic_length_le (m : Nat) (cands : List Candidate) :
    (extractOrganic m cands).length ≤ m := by
  unfold extractOrganic
  exact le_trans (enumOrganic_length_le _ 1) (List.length_take_le _ _)

theorem enumOrganicSimple_length_le (l : List Candidate) :
    ∀ i, (enumOrganicSimple i l).length ≤ l.length := by
  induction l with
  | nil => intro i; simp [enumOrganicSimple]
  | cons c rest ih =>
    intro i
    simp only [enumOrganicSimple, List.length_cons]
    cases hc : extractCandidateSimple i c with
    | some r0 => simpa using ih (i + 1)
    | none => exact le_trans (ih (i + 1)) (Nat.le_succ _)

theorem extractOrganicSimple_length_le (m : Nat) (cands : List Candidate) :
    (extractOrganicSimple m cands).length ≤ m := by
  unfold extractOrganicSimple
  exact le_trans (enumOrganicSimple_length_le _ 1) (List.length_take_le _ _)

theorem stopTake_take_length_le (s : Option Nat) (k : Nat) (l : List α) :
    (stopTake s (l.take k)).length ≤ k := by
  cases s with
  | none => exact List.length_take_le _ _
  | some j =>
    simp only [stopTake, List.length_take]
    omega

/-! ## Claim C1 -/

/-- A candidate block without a title: dropped by the extractor. -/
def cNoTitle : Candidate := {}

/-- A titled candidate block. -/
def cTitled : Candidate := { title := some "Example Title" }

/-- C1: the claim that `position` values of `organic_results` are exactly
`1..len(sequence)` and that title-less drops do not consume a position
number is false for both scrapers: each enumerates
`result_divs[:max_results]` with a 1-based counter that advances on every
candidate, dropped or kept.  On a page whose first candidate lacks a
title, the single extracted result carries position 2 in both the session
and the simple extractor, while the claim demands positions `[1]`. -/
theorem C1_counterexample :
    (extractOrganic 10 [cNoTitle, cTitled]).length = 1 ∧
    (extractOrganic 10 [cNoTitle, cTitled]).map (fun r => r.position) = [2] ∧
    ¬ positionsDense (extractOrganic 10 [cNoTitle, cTitled]) ∧
    (extractOrganicSimple 10 [cNoTitle, cTitled]).length = 1 ∧
    (extractOrganicSimple 10 [cNoTitle, cTitled]).map (fun r => r.position) = [2] ∧
    ¬ positionsDense (extractOrganicSimple 10 [cNoTitle, cTitled]) := by
  decide

/-- C1 (amended): in every result document of either scraper, the
`position` values of `organic_results` are the 1-based indices of the
originating candidates, in document order: they are strictly increasing
and lie in `1..min max_results (number of candidates)`, but a candidate
dropped for lacking a title does consume a position number, so gaps may
appear. -/
theorem C1_amended_positions (max_results : Nat) (cands : List Candidate) :
    (List.Chain' (· < ·)
        ((extractOrganic max_results cands).map fun r => r.position) ∧
      ∀ r ∈ extractOrganic max_results cands,
        1 ≤ r.position ∧ r.position ≤ min max_results cands.length) ∧
    (List.Chain' (· < ·)
        ((extractOrganicSimple max_results cands).map fun r => r.position) ∧
      ∀ r ∈ extractOrganicSimple max_results cands,
        1 ≤ r.position ∧ r.position ≤ min max_results cands.length) := by
  have hlen : (cands.take max_results).length = min max_results cands.length :=
    List.length_take _ _
  refine ⟨⟨enumOrganic_chain _ 1, ?_⟩, ⟨enumOrganicSimple_chain _ 1, ?_⟩⟩
  · intro r hr
    have hb := enumOrganic_position_bounds (cands.take max_results) 1 r hr
    rw [hlen] at hb
    omega
  · intro r hr
    have hb := enumOrganicSimple_position_bounds (cands.take max_results) 1 r hr
    rw [hlen] at hb
    omega

theorem C1_amended_positions_witness :
    ((extractOrganic 10 [cNoTitle, cTitled]).map fun r => r.position) = [2] ∧
    ((extractOrganicSimple 10 [cNoTitle, cTitled]).map fun r => r.position) = [2] ∧
    (1 ≤ 2 ∧ 2 ≤ min 10 2) ∧ (1 ≤ 2 ∧ 2 ≤ min 10 2) :=
  ⟨by decide, by decide,
   (C1_amended_positions 10 [cNoTitle, cTitled]).1.2
     { position := 2, title := "Example Title" } (by decide),
   (C1_amended_positions 10 [cNoTitle, cTitled]).2.2
     { position := 2, title := "Example Title" } (by decide)⟩

/-! ## Claim C2 -/

/-- C2: the claim that the session driver's `search` never lets an
exception escape is false for failures during setup: the outer `except`
at lines 356–358 logs and re-raises, so a browser-launch failure
propagates to the caller instead of yielding a result document. -/
theorem C2_counterexample :
    (sessionSearch { launchFails := true } "python asyncio tutorial" 10).1 =
      Except.error "launch failed" := by
  rfl

/-- C2 (amended): once launch, init-script injection and page creation
have succeeded, no exception escapes `search`: it always returns a result
document, whose `error` field is set exactly when the navigation, typing,
results-wait, organic-listing or state-persist step failed.  Failures
before that point (launch, init script, page creation) are re-raised to
the caller. -/
theorem C2_amended (w : World) (q : String) (m : Nat)
    (h1 : w.launchFails = false) (h2 : w.initScriptFails = false)
    (h3 : w.newPageFails = false) :
    (sessionSearch w q m).1.isOk = true ∧
    ∀ d, (sessionSearch w q m).1 = Except.ok d →
      (d.error.isSome = true ↔
        (w.gotoFails = true ∨ w.typingFails = true ∨ w.waitFails = true ∨
         w.page.organicAllFails = true ∨ w.storageStateFails = true)) := by
  cases hg : w.gotoFails <;> cases ht : w.typingFails <;> cases hw : w.waitFails <;>
    cases ho : w.page.organicAllFails <;> cases hs : w.storageStateFails <;>
      constructor <;>
        simp [sessionSearch, sessionErrorExit, extractAll, metadataDoc,
          emptySearchData, Except.isOk, Except.toBool, h1, h2, h3, hg, ht, hw, ho, hs]

theorem C2_amended_witness :
    (sessionSearch {} "q" 5).1.isOk = true ∧
    ∀ d, (sessionSearch {} "q" 5).1 = Except.ok d →
      (d.error.isSome = true ↔
        (({} : World).gotoFails = true ∨ ({} : World).typingFails = true ∨
         ({} : World).waitFails = true ∨
         ({} : World).page.organicAllFails = true ∨
         ({} : World).storageStateFails = true)) :=
  C2_amended {} "q" 5 rfl rfl rfl

/-! ## Claim C3 -/

/-- C3: the claim that a launched session always releases its browser
context is false for a failure at page creation: `context.close()` sits
in the `finally` of the inner `try` (line 353), which is never entered
when `context.new_page()` at line 63 raises, so the exception propagates
without the driver closing the context it launched. -/
theorem C3_counterexample :
    (sessionSearch { newPageFails := true } "q" 10).1 =
      Except.error "new page failed" ∧
    Event.contextClose ∉ (sessionSearch { newPageFails := true } "q" 10).2 :=
  ⟨rfl, by decide⟩

/-- C3 (amended): guaranteed teardown holds only from page creation
onwards: whenever launch, init-script injection and page creation
succeed, the context is closed before `search` returns, on success and on
every later failure alike; a failure at init-script injection or page
creation escapes without the driver closing the context (only the
enclosing playwright shutdown runs). -/
theorem C3_amended (w : World) (q : String) (m : Nat)
    (h1 : w.launchFails = false) (h2 : w.initScriptFails = false)
    (h3 : w.newPageFails = false) :
    Event.contextClose ∈ (sessionSearch w q m).2 := by
  cases hg : w.gotoFails <;> cases ht : w.typingFails <;> cases hw : w.waitFails <;>
    cases ho : w.page.organicAllFails <;> cases hs : w.storageStateFails <;>
      cases hscr : w.screenshotFails <;>
        simp [sessionSearch, sessionErrorExit, h1, h2, h3, hg, ht, hw, ho, hs, hscr]

theorem C3_amended_witness :
    Event.contextClose ∈ (sessionSearch {} "q" 5).2 :=
  C3_amended {} "q" 5 rfl rfl rfl

/-! ## Claim C4 -/

/-- C4: the claim that session state is persisted at the end of every
session that reached a navigable page, success or failure, is false:
`context.storage_state(...)` at line 325 lies on the success path only.
A session that loads google.com (`goto` succeeds) and then times out
waiting for results returns an error document without persisting. -/
theorem C4_counterexample :
    Event.goto ∈ (sessionSearch { waitFails := true } "q" 10).2 ∧
    ((sessionSearch { waitFails := true } "q" 10).1.toOption.map
      (fun d => d.error.isSome)) = some true ∧
    Event.storageState ∉ (sessionSearch { waitFails := true } "q" 10).2 := by
  refine ⟨by decide, rfl, by decide⟩

/-- C4 (amended): session state is persisted exactly when the whole
session succeeds — navigation, typing, results wait and organic listing
all complete and the persist call itself does not fail.  Sessions that
reached a navigable page but failed later do not persist. -/
theorem C4_amended (w : World) (q : String) (m : Nat)
    (h1 : w.launchFails = false) (h2 : w.initScriptFails = false)
    (h3 : w.newPageFails = false) :
    Event.storageState ∈ (sessionSearch w q m).2 ↔
      (w.gotoFails = false ∧ w.typingFails = false ∧ w.waitFails = false ∧
       w.page.organicAllFails = false ∧ w.storageStateFails = false) := by
  cases hg : w.gotoFails <;> cases ht : w.typingFails <;> cases hw : w.waitFails <;>
    cases ho : w.page.organicAllFails <;> cases hs : w.storageStateFails <;>
      cases hscr : w.screenshotFails <;>
        simp [sessionSearch, sessionErrorExit, h1, h2, h3, hg, ht, hw, ho, hs, hscr]

theorem C4_amended_witness :
    Event.storageState ∈ (sessionSearch {} "q" 5).2 ↔
      (({} : World).gotoFails = false ∧ ({} : World).typingFails = false ∧
       ({} : World).waitFails = false ∧
       ({} : World).page.organicAllFails = false ∧
       ({} : World).storageStateFails = false) :=
  C4_amended {} "q" 5 rfl rfl rfl

/-! ## Claim C5 -/

/-- The documented caps on every sequence field of a result document. -/
def docCaps (max_results : Nat) (d : SearchData) : Prop :=
  d.organic_results.length ≤ max_results ∧
  d.people_also_ask.length ≤ 6 ∧
  d.related_searches.length ≤ 8 ∧
  d.video_results.length ≤ 3 ∧
  d.ads.length ≤ 5 ∧
  d.local_results.length ≤ 3 ∧
  ∀ r ∈ d.organic_results, r.sitelinks.length ≤ 4

theorem extractPaa_length_le (items : List (Option String)) (stop : Option Nat) :
    (extractPaa items stop).length ≤ 6 :=
  le_trans (List.length_filterMap_le _ _) (stopTake_take_length_le _ _ _)

theorem extractRelated_length_le (items : List (Option String)) (stop : Option Nat) :
    (extractRelated items stop).length ≤ 8 :=
  le_trans (List.length_filterMap_le _ _) (stopTake_take_length_le _ _ _)

theorem extractVideos_length_le (present : Bool) (vids : List VideoCand)
    (stop : Option Nat) : (extractVideos present vids stop).length ≤ 3 := by
  unfold extractVideos
  split
  · exact le_trans (List.length_filterMap_le _ _) (stopTake_take_length_le _ _ _)
  · simp

theorem extractAds_length_le (ads : List AdCand) (stop : Option Nat) :
    (extractAds ads stop).length ≤ 5 :=
  le_trans (List.length_filterMap_le _ _) (stopTake_take_length_le _ _ _)

theorem extractLocals_length_le (present : Bool) (items : List LocalCand)
    (stop : Option Nat) : (extractLocals present items stop).length ≤ 3 := by
  unfold extractLocals
  split
  · exact le_trans (List.length_filterMap_le _ _) (stopTake_take_length_le _ _ _)
  · simp

theorem extractOrganic_sitelinks_le (m : Nat) (cands : List Candidate) :
    ∀ r ∈ extractOrganic m cands, r.sitelinks.length ≤ 4 := by
  intro r hr
  obtain ⟨j, c, hc⟩ := enumOrganic_mem_origin _ 1 r hr
  exact extractCandidate_sitelinks hc

theorem extractCandidateSimple_sitelinks {i : Nat} {c : Candidate}
    {r : OrganicResult} (h : extractCandidateSimple i c = some r) :
    r.sitelinks.length ≤ 4 := by
  unfold extractCandidateSimple at h
  split at h
  · split at h
    · exact absurd h (by simp)
    · cases h; simp
  · exact absurd h (by simp)

theorem enumOrganicSimple_mem_origin (l : List Candidate) :
    ∀ i r, r ∈ enumOrganicSimple i l → ∃ j c, extractCandidateSimple j c = some r := by
  induction l with
  | nil => intro i r hr; simp [enumOrganicSimple] at hr
  | cons c rest ih =>
    intro i r hr
    simp only [enumOrganicSimple] at hr
    cases hc : extractCandidateSimple i c with
    | some r0 =>
      rw [hc] at hr
      rcases List.mem_cons.mp hr with h | h
      · exact ⟨i, c, h ▸ hc⟩
      · exact ih (i + 1) r h
    | none =>
      rw [hc] at hr
      exact ih (i + 1) r hr

theorem extractOrganicSimple_sitelinks_le (m : Nat) (cands : List Candidate) :
    ∀ r ∈ extractOrganicSimple m cands, r.sitelinks.length ≤ 4 := by
  intro r hr
  obtain ⟨j, c, hc⟩ := enumOrganicSimple_mem_origin _ 1 r hr
  exact extractCandidateSimple_sitelinks hc

theorem docCaps_extractAll (q : String) (m : Nat) (pg : Page) :
    docCaps m (extractAll q m pg) := by
  refine ⟨?_, ?_, ?_, ?_, ?_, ?_, ?_⟩ <;>
    simp only [extractAll, metadataDoc, emptySearchData]
  · exact extractOrganic_length_le m pg.candidates
  · exact extractPaa_length_le _ _
  · exact extractRelated_length_le _ _
  · exact extractVideos_length_le _ _ _
  · exact extractAds_length_le _ _
  · exact extractLocals_length_le _ _ _
  · exact extractOrganic_sitelinks_le m pg.candidates

theorem docCaps_simpleDoc (q : String) (m : Nat) (pg : Page) :
    docCaps m (simpleDoc q m pg) := by
  refine ⟨?_, ?_, ?_, ?_, ?_, ?_, ?_⟩ <;>
    simp only [simpleDoc, simpleMetadataDoc, emptySearchData]
  · exact extractOrganicSimple_length_le m pg.candidates
  · simp
  · simp
  · simp
  · simp
  · simp
  · exact extractOrganicSimple_sitelinks_le m pg.candidates

theorem docCaps_with_error (m : Nat) (d : SearchData) (e : Option SearchError)
    (h : docCaps m d) : docCaps m { d with error := e } := by
  cases d
  simpa [docCaps] using h

/-- C5: every sequence field of every result document either scraper
returns respects its documented cap: organic ≤ max_results, PAA ≤ 6,
related ≤ 8, videos ≤ 3, ads ≤ 5, local ≤ 3, and every organic result's
sitelinks ≤ 4 — on the success path and on every error path alike. -/
theorem C5_caps (w : World) (sw : SimpleWorld) (q : String) (m : Nat)
    (d ds : SearchData)
    (h : (sessionSearch w q m).1 = Except.ok d)
    (hs : (simpleSearch sw q m).1 = Except.ok ds) :
    docCaps m d ∧ docCaps m ds := by
  constructor
  · unfold sessionSearch at h
    split_ifs at h <;> simp only [sessionErrorExit] at h <;> simp at h <;> subst h
    · exact docCaps_with_error _ _ _ (by simp [docCaps, emptySearchData])
    · exact docCaps_with_error _ _ _ (by simp [docCaps, emptySearchData])
    · exact docCaps_with_error _ _ _ (by simp [docCaps, emptySearchData])
    · exact docCaps_with_error _ _ _ (by simp [docCaps, metadataDoc, emptySearchData])
    · exact docCaps_with_error _ _ _ (docCaps_extractAll q m w.page)
    · exact docCaps_extractAll q m w.page
  · unfold simpleSearch at hs
    split_ifs at hs <;> simp only [simpleErrorExit] at hs <;> simp at hs <;> subst hs
    · exact docCaps_with_error _ _ _ (by simp [docCaps, emptySearchData])
    · exact docCaps_with_error _ _ _ (by simp [docCaps, emptySearchData])
    · exact docCaps_with_error _ _ _ (by simp [docCaps, emptySearchData])
    · exact docCaps_with_error _ _ _
        (by simp [docCaps, simpleMetadataDoc, emptySearchData])
    · exact docCaps_simpleDoc q m sw.page

theorem C5_caps_witness :
    docCaps 5 ((sessionSearch {} "q" 5).1.toOption.getD (emptySearchData "q")) ∧
    docCaps 5 ((simpleSearch {} "q" 5).1.toOption.getD (emptySearchData "q")) :=
  C5_caps {} {} "q" 5
    ((sessionSearch {} "q" 5).1.toOption.getD (emptySearchData "q"))
    ((simpleSearch {} "q" 5).1.toOption.getD (emptySearchData "q")) rfl rfl

/-! ## Claim C6 -/

/-- C6: the claim that `domain` equals the empty string when `link` is
absent is false: when no `a[href]` element exists the code never writes
the `link` or `domain` keys at all (lines 171–174 run only when the
element count is positive), so `domain` is absent (`null` in the JSON),
not `""`.  A titled candidate without a link yields a result whose
`domain` is `none`. -/
theorem C6_counterexample :
    (extractOrganic 10 [cTitled]).map (fun r => r.domain) = [none] ∧
    ((none : Option String) = some "" → False) := by
  decide

/-- A titled candidate with an absolute link. -/
def cLinked : Candidate :=
  { title := some "T", link := some "https://example.com/path" }

/-- The organic result `cLinked` extracts to. -/
def cLinkedResult : OrganicResult :=
  { position := 1, title := "T", link := some "https://example.com/path",
    domain := some "example.com" }

/-- C6 (amended): for every organic result in either scraper's output,
`domain` mirrors `link`: both keys are absent when no link element was
found; otherwise `domain` is the `urlparse` authority of the link (`""`
when the link is empty or has no authority, e.g. the malformed
`"not a url"`).  A link whose parse raises drops the whole candidate, so
no organic result carries it. -/
theorem C6_amended_domain (m : Nat) (cands : List Candidate) :
    (∀ r ∈ extractOrganic m cands,
      (r.link = none → r.domain = none) ∧
      ∀ s, r.link = some s →
        r.domain = some (if s = "" then "" else (urlparse_netloc s).getD "")) ∧
    (∀ r ∈ extractOrganicSimple m cands,
      (r.link = none → r.domain = none) ∧
      ∀ s, r.link = some s →
        r.domain = some (if s = "" then "" else (urlparse_netloc s).getD "")) ∧
    urlparse_netloc "not a url" = some "" ∧
    urlparse_netloc "https://example.com/path" = some "example.com" := by
  refine ⟨?_, ?_, by decide, by decide⟩
  · intro r hr
    obtain ⟨j, c, hc⟩ := enumOrganic_mem_origin _ 1 r hr
    rcases extractCandidate_domain hc with ⟨hl, hd⟩ | ⟨s, hl, hd⟩
    · exact ⟨fun _ => hd, fun s hs => by rw [hl] at hs; cases hs⟩
    · constructor
      · intro hn
        rw [hl] at hn
        cases hn
      · intro s' hs'
        rw [hl] at hs'
        cases hs'
        exact hd
  · intro r hr
    obtain ⟨j, c, hc⟩ := enumOrganicSimple_mem_origin _ 1 r hr
    rcases extractCandidateSimple_domain hc with ⟨hl, hd⟩ | ⟨s, hl, hd⟩
    · exact ⟨fun _ => hd, fun s hs => by rw [hl] at hs; cases hs⟩
    · constructor
      · intro hn
        rw [hl] at hn
        cases hn
      · intro s' hs'
        rw [hl] at hs'
        cases hs'
        exact hd

theorem C6_amended_domain_witness :
    (extractOrganic 3 [cLinked] = [cLinkedResult]) ∧
    cLinkedResult.domain =
      some (if "https://example.com/path" = "" then ""
            else (urlparse_netloc "https://example.com/path").getD "") :=
  ⟨by decide,
   ((C6_amended_domain 3 [cLinked]).1 cLinkedResult (by decide)).2
     "https://example.com/path" rfl⟩

/-! ## Claim C7 -/

/-- C7: the claim that every response a caller receives carries a result
document with all sequence fields present is false: when the scraper
raises (e.g. browser launch failure), `search_single`'s `except` at
lines 112–121 returns a response whose `data` is the empty dict `{}`,
with no sequence fields at all. -/
theorem C7_counterexample :
    (search_single .session { launchFails := true } {} "q" 10).data = none ∧
    (search_single .session { launchFails := true } {} "q" 10).success = false ∧
    (search_single .session { launchFails := true } {} "q" 10).error =
      some "launch failed" :=
  ⟨rfl, rfl, rfl⟩

/-- C7 (amended): in every response, `success` is true exactly when the
response-level `error` is absent; whenever `data` is a scraper-produced
document (whose sequence fields are all present and default to empty by
construction), `success` reflects the document's `error` field; but when
the scraper raised, `data` is the empty object with every field absent
and the response-level `error` carries the failure. -/
theorem C7_amended (mode : ScraperMode) (w : World) (sw : SimpleWorld)
    (q : String) (m : Nat) :
    ((search_single mode w sw q m).success = true ↔
      (search_single mode w sw q m).error = none) ∧
    ((search_single mode w sw q m).data = none →
      (search_single mode w sw q m).success = false) ∧
    (∀ d, (search_single mode w sw q m).data = some d →
      ((search_single mode w sw q m).success = true ↔ d.error = none)) := by
  cases hr : scraperResult mode w sw q m with
  | error e => simp [search_single, hr]
  | ok d0 =>
    cases hd : d0.error with
    | none => simp [search_single, hr, hd]
    | some err => simp [search_single, hr, hd]

theorem C7_amended_witness :
    ((search_single .session {} {} "q" 5).success = true ↔
      (search_single .session {} {} "q" 5).error = none) ∧
    ((search_single .session {} {} "q" 5).data = none →
      (search_single .session {} {} "q" 5).success = false) ∧
    (∀ d, (search_single .session {} {} "q" 5).data = some d →
      ((search_single .session {} {} "q" 5).success = true ↔ d.error = none)) :=
  C7_amended .session {} {} "q" 5

/-! ## Claim C8 -/

/-- C8: `search_batch` runs the queries strictly sequentially, wrapping
each query's outcome through `search_single` (which turns any scraper
failure into a structured failed response): the returned sequence is
exactly the per-query responses in input order — one response per input
query, each depending only on its own query's world, so a failure on
query `i` does not abort or alter queries `i+1..n`. -/
theorem batchLoop_nil (mode : ScraperMode) (m : Nat) (dmin dmax : ℚ)
    (us : Nat → ℚ) (i : Nat) :
    batchLoop mode m dmin dmax us i [] = ([], []) := rfl

theorem batchLoop_single (mode : ScraperMode) (m : Nat) (dmin dmax : ℚ)
    (us : Nat → ℚ) (i : Nat) (it : BatchItem) :
    batchLoop mode m dmin dmax us i [it] =
      ([search_single mode it.world it.simpleWorld it.query m],
       [BatchEvent.search it.query]) := rfl

theorem batchLoop_cons2 (mode : ScraperMode) (m : Nat) (dmin dmax : ℚ)
    (us : Nat → ℚ) (i : Nat) (it it2 : BatchItem) (rest2 : List BatchItem) :
    batchLoop mode m dmin dmax us i (it :: it2 :: rest2) =
      (search_single mode it.world it.simpleWorld it.query m ::
         (batchLoop mode m dmin dmax us (i + 1) (it2 :: rest2)).1,
       BatchEvent.search it.query ::
         BatchEvent.delay (dmin + (dmax - dmin) * us i) ::
           (batchLoop mode m dmin dmax us (i + 1) (it2 :: rest2)).2) := rfl

theorem C8_batch_isolation (mode : ScraperMode) (items : List BatchItem)
    (m : Nat) (dmin dmax : ℚ) (us : Nat → ℚ) :
    (search_batch mode items m dmin dmax us).1 =
      items.map (fun it => search_single mode it.world it.simpleWorld it.query m) ∧
    (search_batch mode items m dmin dmax us).1.length = items.length := by
  have key : ∀ (l : List BatchItem) (i : Nat),
      (batchLoop mode m dmin dmax us i l).1 =
        l.map (fun it => search_single mode it.world it.simpleWorld it.query m) := by
    intro l
    induction l with
    | nil => intro i; rfl
    | cons it rest ih =>
      intro i
      cases rest with
      | nil => simp [batchLoop_single]
      | cons it2 rest2 => simp [batchLoop_cons2, ih (i + 1)]
  refine ⟨key items 0, ?_⟩
  rw [search_batch, key items 0, List.length_map]

/-! ## Claim C9 -/

theorem batchLoop_trace (mode : ScraperMode) (m : Nat) (dmin dmax : ℚ)
    (us : Nat → ℚ) (l : List BatchItem) :
    ∀ i,
      (delaysOf (batchLoop mode m dmin dmax us i l).2).length = l.length - 1 ∧
      (∀ x ∈ delaysOf (batchLoop mode m dmin dmax us i l).2,
        ∃ j, x = dmin + (dmax - dmin) * us j) ∧
      (∀ x : ℚ, (batchLoop mode m dmin dmax us i l).2.getLast? ≠
        some (BatchEvent.delay x)) := by
  induction l with
  | nil =>
    intro i
    refine ⟨rfl, ?_, ?_⟩
    · intro x hx; cases hx
    · intro x hx; cases hx
  | cons it rest ih =>
    intro i
    cases rest with
    | nil =>
      refine ⟨rfl, ?_, ?_⟩
      · intro x hx
        simp [batchLoop_single, delaysOf] at hx
      · intro x
        simp [batchLoop_single]
    | cons it2 rest2 =>
      obtain ⟨ihlen, ihmem, ihlast⟩ := ih (i + 1)
      have hne : (batchLoop mode m dmin dmax us (i + 1) (it2 :: rest2)).2 ≠ [] := by
        cases rest2 <;> simp [batchLoop_single, batchLoop_cons2]
      refine ⟨?_, ?_, ?_⟩
      · simp only [batchLoop_cons2, delaysOf, List.filterMap_cons] at ihlen ⊢
        simp only [List.length_cons]
        simp [ihlen]
      · intro x hx
        simp only [batchLoop_cons2, delaysOf, List.filterMap_cons] at hx ihmem
        rcases List.mem_cons.mp hx with h | h
        · exact ⟨i, h⟩
        · exact ihmem x h
      · intro x
        obtain ⟨e, t, het⟩ := List.exists_cons_of_ne_nil hne
        simp only [batchLoop_cons2]
        rw [List.getLast?_cons_cons, het, List.getLast?_cons_cons]
        have hl := ihlast x
        rw [het] at hl
        exact hl

theorem backgroundLoop_nil (mode : ScraperMode) (m : Nat) (rs : Nat → ℤ)
    (total i : Nat) : backgroundLoop mode m rs total i [] = ([], []) := rfl

theorem backgroundLoop_single (mode : ScraperMode) (m : Nat) (rs : Nat → ℤ)
    (total i : Nat) (it : BatchItem) :
    backgroundLoop mode m rs total i [it] =
      ([search_single mode it.world it.simpleWorld it.query m],
       [JobBatchEvent.progress i total, JobBatchEvent.search it.query]) := rfl

theorem backgroundLoop_cons2 (mode : ScraperMode) (m : Nat) (rs : Nat → ℤ)
    (total i : Nat) (it it2 : BatchItem) (rest2 : List BatchItem) :
    backgroundLoop mode m rs total i (it :: it2 :: rest2) =
      (search_single mode it.world it.simpleWorld it.query m ::
         (backgroundLoop mode m rs total (i + 1) (it2 :: rest2)).1,
       JobBatchEvent.progress i total :: JobBatchEvent.search it.query ::
         JobBatchEvent.delay (rs i) ::
           (backgroundLoop mode m rs total (i + 1) (it2 :: rest2)).2) := rfl

theorem backgroundLoop_trace (mode : ScraperMode) (m : Nat) (rs : Nat → ℤ)
    (total : Nat) (l : List BatchItem) :
    ∀ i,
      (delaysOfJob (backgroundLoop mode m rs total i l).2).length = l.length - 1 ∧
      (∀ x ∈ delaysOfJob (backgroundLoop mode m rs total i l).2,
        ∃ j, x = rs j) ∧
      (∀ x : ℤ, (backgroundLoop mode m rs total i l).2.getLast? ≠
        some (JobBatchEvent.delay x)) := by
  induction l with
  | nil =>
    intro i
    refine ⟨rfl, ?_, ?_⟩
    · intro x hx; cases hx
    · intro x hx; cases hx
  | cons it rest ih =>
    intro i
    cases rest with
    | nil =>
      refine ⟨rfl, ?_, ?_⟩
      · intro x hx
        simp [backgroundLoop_single, delaysOfJob] at hx
      · intro x
        simp [backgroundLoop_single]
    | cons it2 rest2 =>
      obtain ⟨ihlen, ihmem, ihlast⟩ := ih (i + 1)
      have hne : (backgroundLoop mode m rs total (i + 1) (it2 :: rest2)).2 ≠ [] := by
        cases rest2 <;> simp [backgroundLoop_single, backgroundLoop_cons2]
      refine ⟨?_, ?_, ?_⟩
      · simp only [backgroundLoop_cons2, delaysOfJob, List.filterMap_cons]
          at ihlen ⊢
        simp only [List.length_cons]
        simp [ihlen]
      · intro x hx
        simp only [backgroundLoop_cons2, delaysOfJob, List.filterMap_cons]
          at hx ihmem
        rcases List.mem_cons.mp hx with h | h
        · exact ⟨i, h⟩
        · exact ihmem x h
      · intro x
        obtain ⟨e, t, het⟩ := List.exists_cons_of_ne_nil hne
        simp only [backgroundLoop_cons2]
        rw [List.getLast?_cons_cons, List.getLast?_cons_cons, het,
          List.getLast?_cons_cons]
        have hl := ihlast x
        rw [het] at hl
        exact hl

/-- C9: both pacing loops respect the claim.  In `search_batch`, exactly
`n - 1` inter-query delays occur, one between each pair of consecutive
queries and none after the final query (the trace never ends in a
delay); because `random.uniform(a, b)` returns `a + (b-a)*random()` with
`random()` in `[0, 1]`, each delay lies within `[delay_min, delay_max]`
whenever `delay_min ≤ delay_max`.  In the background job task
`run_batch_search_background`, the same loop shape holds with
`random.randint(delay_min, delay_max)`, whose draws are integers within
`[delay_min, delay_max]` inclusive. -/
theorem C9_pacing (mode : ScraperMode) (items : List BatchItem) (m : Nat)
    (dmin dmax : ℚ) (us : Nat → ℚ) (dminZ dmaxZ : ℤ) (rs : Nat → ℤ)
    (hd : dmin ≤ dmax) (hus : ∀ i, 0 ≤ us i ∧ us i ≤ 1)
    (hrs : ∀ i, dminZ ≤ rs i ∧ rs i ≤ dmaxZ) :
    ((delaysOf (search_batch mode items m dmin dmax us).2).length =
        items.length - 1 ∧
      (∀ x ∈ delaysOf (search_batch mode items m dmin dmax us).2,
        dmin ≤ x ∧ x ≤ dmax) ∧
      (∀ x : ℚ, (search_batch mode items m dmin dmax us).2.getLast? ≠
        some (BatchEvent.delay x))) ∧
    ((delaysOfJob (run_batch_background mode items m rs).2).length =
        items.length - 1 ∧
      (∀ x ∈ delaysOfJob (run_batch_background mode items m rs).2,
        dminZ ≤ x ∧ x ≤ dmaxZ) ∧
      (∀ x : ℤ, (run_batch_background mode items m rs).2.getLast? ≠
        some (JobBatchEvent.delay x))) := by
  constructor
  · obtain ⟨hlen, hmem, hlast⟩ := batchLoop_trace mode m dmin dmax us items 0
    refine ⟨hlen, ?_, hlast⟩
    intro x hx
    obtain ⟨j, hj⟩ := hmem x hx
    obtain ⟨hj0, hj1⟩ := hus j
    subst hj
    constructor
    · nlinarith
    · nlinarith
  · obtain ⟨hlen, hmem, hlast⟩ :=
      backgroundLoop_trace mode m rs items.length items 0
    refine ⟨hlen, ?_, hlast⟩
    intro x hx
    obtain ⟨j, hj⟩ := hmem x hx
    subst hj
    exact hrs j

def biA : BatchItem := { query := "a" }

def biB : BatchItem := { query := "b" }

def biC : BatchItem := { query := "c" }

theorem C9_pacing_witness :
    ((delaysOf (search_batch .session [biA, biB, biC] 5 5 10 (fun _ => 1/2)).2).length =
        ([biA, biB, biC] : List BatchItem).length - 1 ∧
      (∀ x ∈ delaysOf (search_batch .session [biA, biB, biC] 5 5 10 (fun _ => 1/2)).2,
        (5 : ℚ) ≤ x ∧ x ≤ 10) ∧
      (∀ x : ℚ,
        (search_batch .session [biA, biB, biC] 5 5 10 (fun _ => 1/2)).2.getLast? ≠
          some (BatchEvent.delay x))) ∧
    ((delaysOfJob (run_batch_background .session [biA, biB, biC] 5 (fun _ => 7)).2).length =
        ([biA, biB, biC] : List BatchItem).length - 1 ∧
      (∀ x ∈ delaysOfJob (run_batch_background .session [biA, biB, biC] 5 (fun _ => 7)).2,
        (5 : ℤ) ≤ x ∧ x ≤ 10) ∧
      (∀ x : ℤ,
        (run_batch_background .session [biA, biB, biC] 5 (fun _ => 7)).2.getLast? ≠
          some (JobBatchEvent.delay x))) :=
  C9_pacing .session [biA, biB, biC] 5 5 10 (fun _ => 1/2) 5 10 (fun _ => 7)
    (by norm_num) (fun i => by norm_num) (fun i => by norm_num)

/-! ## Claim C10 -/

/-- C10: every mutating `JobService` operation first checks membership,
so on an id absent from the map `update_job_progress`, `complete_job`
and `fail_job` raise nothing and leave the job map completely unchanged,
while `get_job` on such an id returns the not-found value `None`. -/
theorem C10_missing_id_noops (jobs : JobMap) (jid : String)
    (current total : Nat) (results : List SearchResponse) (err now : String)
    (h : containsJob jobs jid = false) :
    update_job_progress jobs jid current total = jobs ∧
    complete_job jobs jid results now = jobs ∧
    fail_job jobs jid err now = jobs ∧
    get_job jobs jid = none := by
  have hfind : jobs.find? (fun p => p.1 = jid) = none := by
    rw [List.find?_eq_none]
    intro p hp hpj
    have hc : containsJob jobs jid = true := by
      unfold containsJob
      exact List.any_eq_true.mpr ⟨p, hp, hpj⟩
    rw [h] at hc
    cases hc
  refine ⟨?_, ?_, ?_, ?_⟩
  · simp [update_job_progress, h]
  · simp [complete_job, h]
  · simp [fail_job, h]
  · simp [get_job, hfind]

theorem C10_missing_id_noops_witness :
    update_job_progress [] "missing" 1 3 = [] ∧
    complete_job [] "missing" [] "t1" = [] ∧
    fail_job [] "missing" "boom" "t1" = [] ∧
    get_job [] "missing" = none :=
  C10_missing_id_noops [] "missing" 1 3 [] "boom" "t1" rfl

end Scrape
